import Mathlib

/-!
# Verification of the `raytracer` core against its specification

Shallow embedding of the renderer's core (`utility.rs`, `geometry.rs`,
`world.rs`, `light.rs`, `sampler.rs`, `camera.rs`, `brdf.rs`, `material.rs`).

Floating-point (`f64`) arithmetic is embedded as exact rational arithmetic
(`ℚ`) for the code paths that use only field operations and comparisons, and
as real arithmetic (`ℝ`, with `Real.sqrt` for `f64::sqrt`) for the code paths
that take square roots.  Rational division by zero yields `0` in the model;
theorems about code paths where the `f64` result would be non-finite are
stated under non-degeneracy hypotheses, except where the non-finite values
are themselves the point: the division of `Plane::hit` is also modelled with
explicit IEEE `±∞`/NaN results, and `f64` NaN propagation through
`partial_cmp` is modelled by an explicit NaN-extended scalar type.
Rust panics are modelled by `Option`/`Except` results (`none`/`.error` means
the call panics).
-/

namespace Raytracer

/-! ## utility.rs : `Vec3`, `Vec2`, `Colour`, `Ray` over `ℚ` -/

/-- `Vec3` (utility.rs) with exact rational components. -/
structure Vec3Q where
  x : ℚ
  y : ℚ
  z : ℚ
deriving DecidableEq

/-- `Vec3::dot` (utility.rs). -/
def Vec3Q.dot (a b : Vec3Q) : ℚ :=
  a.x * b.x + a.y * b.y + a.z * b.z

instance : Sub Vec3Q :=
  ⟨fun a b => ⟨a.x - b.x, a.y - b.y, a.z - b.z⟩⟩

instance : Add Vec3Q :=
  ⟨fun a b => ⟨a.x + b.x, a.y + b.y, a.z + b.z⟩⟩

/-- `impl Div<Vec3> for f64` (utility.rs): componentwise `k / v`. -/
def Vec3Q.recipScale (k : ℚ) (v : Vec3Q) : Vec3Q :=
  ⟨k / v.x, k / v.y, k / v.z⟩

/-- `Vec2` (utility.rs) with exact rational components. -/
structure Vec2Q where
  x : ℚ
  y : ℚ
deriving DecidableEq

/-- `impl Div<f64> for Vec2` (utility.rs). -/
def Vec2Q.divS (v : Vec2Q) (k : ℚ) : Vec2Q :=
  ⟨v.x / k, v.y / k⟩

/-- `Colour` (utility.rs) with exact rational components. -/
structure ColourQ where
  r : ℚ
  g : ℚ
  b : ℚ
deriving DecidableEq

/-- `Colour::black` (utility.rs). -/
def ColourQ.black : ColourQ := ⟨0, 0, 0⟩

/-- `Colour::white` (utility.rs). -/
def ColourQ.white : ColourQ := ⟨1, 1, 1⟩

/-- `Ray` (utility.rs). -/
structure RayQ where
  origin : Vec3Q
  direction : Vec3Q
deriving DecidableEq

/-! ## geometry.rs over `ℚ` : `EPSILON`, `Intersection`, `Plane`, `Cuboid` -/

/-- `EPSILON = 0.0001` (geometry.rs). -/
def EPSILON : ℚ := 1 / 10000

/-- `Intersection` (geometry.rs): the originating ray, the distance `t`,
and the (temporary) colour payload. -/
structure Inter0 where
  ray : RayQ
  t : ℚ
  colour : ColourQ
deriving DecidableEq

/-- `Plane` (geometry.rs). -/
structure PlaneQ where
  point : Vec3Q
  normal : Vec3Q
  colour : ColourQ
deriving DecidableEq

/-- `impl Geometry for Plane :: hit` (geometry.rs lines 77-89), on the
finite-arithmetic path: rational division by zero yields `0` here, so this
definition reflects the source only on rays with `direction·normal ≠ 0`.
The full IEEE behaviour (a parallel ray's division by zero producing a
non-finite `t`) is modelled by `PlaneQ.hitF` below, which agrees with this
definition off the degenerate path. -/
def PlaneQ.hit (p : PlaneQ) (ray : RayQ) : Option Inter0 :=
  let offset := p.point - ray.origin
  let t := offset.dot p.normal / ray.direction.dot p.normal
  if t > EPSILON then
    some ⟨ray, t, p.colour⟩
  else
    none

/-- An `f64` value as produced by a division with exactly-represented finite
operands: a finite rational, `+∞`, `-∞`, or NaN. -/
inductive FExt where
  | val : ℚ → FExt
  | pinf : FExt
  | ninf : FExt
  | nan : FExt
deriving DecidableEq

/-- IEEE-754 `f64` division for exactly-represented operands: `a / 0` is
`+∞`, `-∞` or NaN according to the sign of `a`. -/
def fdivExt (a b : ℚ) : FExt :=
  if b ≠ 0 then FExt.val (a / b)
  else if 0 < a then FExt.pinf
  else if a < 0 then FExt.ninf
  else FExt.nan

/-- The `f64` comparison `t > EPSILON` (geometry.rs line 80) on a possibly
non-finite `t`: `+∞ > ε` HOLDS; `-∞` and NaN fail the comparison. -/
def FExt.gtEps : FExt → Bool
  | FExt.val q => decide (q > EPSILON)
  | FExt.pinf => true
  | FExt.ninf => false
  | FExt.nan => false

/-- `Intersection` (geometry.rs) with a possibly non-finite distance. -/
structure InterE where
  ray : RayQ
  t : FExt
  colour : ColourQ
deriving DecidableEq

/-- `impl Geometry for Plane :: hit` (geometry.rs lines 77-89) with IEEE
division semantics for the `t` computation, so a parallel ray
(`direction·normal = 0`) produces the genuine non-finite `t` of the source
and the hit test applies the `f64` comparison to it. -/
def PlaneQ.hitF (p : PlaneQ) (ray : RayQ) : Option InterE :=
  let offset := p.point - ray.origin
  let t := fdivExt (offset.dot p.normal) (ray.direction.dot p.normal)
  if t.gtEps then
    some ⟨ray, t, p.colour⟩
  else
    none

/-- `Cuboid` (geometry.rs). -/
structure CuboidQ where
  min : Vec3Q
  max : Vec3Q
  colour : ColourQ
deriving DecidableEq

/-- `impl Geometry for Cuboid :: hit` (geometry.rs lines 139-170): slab
intersection.  Note the source checks only `t_min < t_max`; there is no
comparison of `t_max` (or the returned `t`) against `EPSILON` or `0`. -/
def CuboidQ.hit (c : CuboidQ) (ray : RayQ) : Option Inter0 :=
  let invdir := Vec3Q.recipScale 1 ray.direction
  let t_x1 := (c.min.x - ray.origin.x) * invdir.x
  let t_x2 := (c.max.x - ray.origin.x) * invdir.x
  let t_y1 := (c.min.y - ray.origin.y) * invdir.y
  let t_y2 := (c.max.y - ray.origin.y) * invdir.y
  let t_z1 := (c.min.z - ray.origin.z) * invdir.z
  let t_z2 := (c.max.z - ray.origin.z) * invdir.z
  let t_xn := Min.min t_x1 t_x2
  let t_xf := Max.max t_x1 t_x2
  let t_yn := Min.min t_y1 t_y2
  let t_yf := Max.max t_y1 t_y2
  let t_zn := Min.min t_z1 t_z2
  let t_zf := Max.max t_z1 t_z2
  let t_min := Max.max t_xn (Max.max t_yn t_zn)
  let t_max := Min.min t_xf (Min.min t_yf t_zf)
  if t_min < t_max then
    some ⟨ray, if t_min < 0 then t_max else t_min, c.colour⟩
  else
    none

/-! ## world.rs over `ℚ` : `World::hit_objects`

A boxed `dyn Geometry` is embedded as its `hit` function
`RayQ → Option Inter0` (for example `PlaneQ.hit p` or `CuboidQ.hit c`). -/

/-- `World` (world.rs), restricted to the fields `hit_objects` reads. -/
structure WorldQ where
  background : ColourQ
  objects : List (RayQ → Option Inter0)

/-- `std::cmp::min_by` as used through `Iterator::min_by` (world.rs line 76),
for candidates whose distances are genuine numbers (the NaN panic path is
modelled separately below): keep `a` unless `a.t > b.t`. -/
def minByStepQ (a b : Inter0) : Inter0 :=
  if b.t < a.t then b else a

/-- `Iterator::min_by` (world.rs line 76) on the list of intersection
candidates: `reduce` with `cmp::min_by`, so `none` on an empty list and a
left fold from the first candidate otherwise. -/
def minByQ : List Inter0 → Option Inter0
  | [] => none
  | c :: cs => some (cs.foldl minByStepQ c)

/-- `World::hit_objects` (world.rs lines 72-77): `filter_map` over the
objects' `hit` results, then `min_by` on the distance `t`. -/
def WorldQ.hit_objects (w : WorldQ) (ray : RayQ) : Option Inter0 :=
  minByQ (w.objects.filterMap (fun o => o ray))

/-- Modelled from the spec (§4.5): the intersection candidate with minimum
`t`, ties broken by iteration order with the first-found candidate winning.
Used as the specification side of the `hit_objects` refinement claim. -/
def specNearestHit : List Inter0 → Option Inter0
  | [] => none
  | c :: cs =>
    match specNearestHit cs with
    | none => some c
    | some m => if c.t ≤ m.t then some c else some m

/-! ## light.rs over `ℚ` : `PointLight::in_shadow` -/

/-- `PointLight` (light.rs). -/
structure PointLightQ where
  scale : ℚ
  colour : ColourQ
  location : Vec3Q

/-- `PointLight::in_shadow` (light.rs lines 83-91): squared-distance
occlusion test against every scene object. -/
def PointLightQ.in_shadow (l : PointLightQ) (ray : RayQ) (w : WorldQ) : Bool :=
  let offset := l.location - ray.origin
  let distance_squared := offset.dot offset
  w.objects.any (fun o =>
    match o ray with
    | some i => decide (i.t * i.t < distance_squared)
    | none => false)

/-! ## world.rs with `f64` NaN semantics : the `min_by` panic path

`f64` hit distances are embedded as `FQ` (a rational or NaN); `partial_cmp`
returns `none` exactly when an operand is NaN, and the
`.expect("distance is NaN")` panic is modelled by `Except.error`. -/

/-- An `f64` hit distance: a genuine (finite, exactly-represented) number or
NaN. -/
inductive FQ where
  | nan : FQ
  | val : ℚ → FQ
deriving DecidableEq

/-- `Intersection` restricted to its distance and colour, with a possibly-NaN
distance. -/
structure InterF where
  t : FQ
  colour : ColourQ
deriving DecidableEq

/-- `f64::partial_cmp`: `None` exactly when an operand is NaN. -/
def fcmp : FQ → FQ → Option Ordering
  | FQ.val a, FQ.val b => some (compare a b)
  | _, _ => none

/-- One `cmp::min_by` step of `world.rs` line 76, including the
`.expect("distance is NaN")` panic: keep `a` unless the comparison says
`Greater`; panic if `partial_cmp` returns `None`. -/
def minByStepF (a b : InterF) : Except String InterF :=
  match fcmp a.t b.t with
  | some Ordering.gt => Except.ok b
  | some _ => Except.ok a
  | none => Except.error "distance is NaN"

/-- `Iterator::reduce` over `cmp::min_by` steps (the body of
`Iterator::min_by`); note a single-element iterator performs no comparison at
all. -/
def minByFoldF : InterF → List InterF → Except String InterF
  | a, [] => Except.ok a
  | a, b :: bs =>
    match minByStepF a b with
    | Except.ok m => minByFoldF m bs
    | Except.error e => Except.error e

/-- `World::hit_objects` (world.rs lines 72-77) with NaN-aware distances:
`.error` means the whole call panics. -/
def hitObjectsF (objects : List (RayQ → Option InterF)) (ray : RayQ) :
    Except String (Option InterF) :=
  match objects.filterMap (fun o => o ray) with
  | [] => Except.ok none
  | c :: cs => (minByFoldF c cs).map some

/-! ## sampler.rs : `Regular`, `Jittered`, `Samples`

Random draws (`rng.gen::<f64>()`, one uniform `[0,1)` value per call) are
embedded as explicit streams of rational values passed as parameters, and
`SliceRandom::shuffle` as an explicit reordering function parameter.  A
`Samples::get_next` result of `none` means the call panics. -/

/-- `NUM_SETS = 83` (sampler.rs line 23). -/
def NUM_SETS : ℕ := 83

/-- `Regular` (sampler.rs lines 168-171). -/
structure RegularG where
  num_samples : ℕ
  n : ℕ

/-- `Regular::new` (sampler.rs lines 177-182): `n = sqrt(num_samples)`
truncated to an integer (exact for the perfect squares the accompanying
assert admits). -/
def RegularG.new (num_samples : ℕ) : RegularG :=
  ⟨num_samples, Nat.sqrt num_samples⟩

/-- `Regular::new_square_set` (sampler.rs lines 195-205): the `n × n` grid
`(x, y) / n`, `x` in the outer loop. -/
def RegularG.new_square_set (g : RegularG) : List Vec2Q :=
  (List.range g.n).flatMap (fun x =>
    (List.range g.n).map (fun y => Vec2Q.divS ⟨(x : ℚ), (y : ℚ)⟩ (g.n : ℚ)))

/-- `Jittered` (sampler.rs line 137): a wrapper around `Regular`. -/
structure JitteredG where
  reg : RegularG

/-- `Jittered::new` (sampler.rs lines 143-145). -/
def JitteredG.new (num_samples : ℕ) : JitteredG :=
  ⟨RegularG.new num_samples⟩

/-- `Jittered::new_square_set` (sampler.rs lines 153-161): adds one raw
`rng.gen::<f64>()` value (in `[0,1)`, NOT scaled by the `1/n` grid spacing)
to each coordinate of the regular grid point; `jit i` is the pair of draws
consumed for the `i`-th point. -/
def JitteredG.new_square_set (g : JitteredG) (jit : ℕ → ℚ × ℚ) : List Vec2Q :=
  (g.reg.new_square_set).mapIdx (fun i p => ⟨p.x + (jit i).1, p.y + (jit i).2⟩)

/-- `Samples<Vec2>` (sampler.rs lines 396-401). -/
structure SamplesQ where
  samples : List (List Vec2Q)
  num_samples : ℕ
  count : ℕ
  indices : List ℕ

/-- `Samples::new` (sampler.rs lines 404-412): note `indices` is
`(0..num_samples)`, not `(0..samples.len())`. -/
def SamplesQ.new (num_samples : ℕ) (samples : List (List Vec2Q)) : SamplesQ :=
  ⟨samples, num_samples, 0, List.range num_samples⟩

/-- `Samples::get_next` (sampler.rs lines 425-439).  `shuffle` stands for the
`self.indices.shuffle(&mut thread_rng())` reordering.  Returns the drawn set
together with the updated container state; `none` models a panic (an
out-of-bounds `self.indices[self.count]` or the `.unwrap()` of
`self.samples.get(..)` on `None`). -/
def SamplesQ.get_next (s : SamplesQ) (shuffle : List ℕ → List ℕ) :
    Option (List Vec2Q × SamplesQ) :=
  let st :=
    if 1 < s.indices.length then
      let c := s.count + 1
      if c = s.indices.length then
        { s with count := 0, indices := shuffle s.indices }
      else
        { s with count := c }
    else s
  match st.indices.get? st.count with
  | none => none
  | some i =>
    match st.samples.get? i with
    | none => none
    | some set => some (set, st)

/-- `Generator::gen_square_samples` (sampler.rs lines 64-69) for `Regular`,
whose `num_sets` override returns 1 (sampler.rs lines 190-193). -/
def RegularG.gen_square_samples (g : RegularG) : SamplesQ :=
  SamplesQ.new g.num_samples ((List.range 1).map (fun _ => g.new_square_set))

/-- `Generator::gen_square_samples` (sampler.rs lines 64-69) for `Jittered`,
with the default `num_sets = NUM_SETS`; `jits k` is the rng stream consumed
by the `k`-th call to `new_square_set`. -/
def JitteredG.gen_square_samples (g : JitteredG) (jits : ℕ → ℕ → ℚ × ℚ) :
    SamplesQ :=
  SamplesQ.new g.reg.num_samples
    ((List.range NUM_SETS).map (fun k => g.new_square_set (jits k)))

/-- A concrete rng stream for exercising `Jittered`: every
`rng.gen::<f64>()` draw returns `9/10` (a legal `[0,1)` value). -/
def badJits : ℕ → ℕ → ℚ × ℚ := fun _ _ => (9 / 10, 9 / 10)

/-! ## utility.rs over `ℝ` : the code paths that use `f64::sqrt`

`Vec3::mag`/`normalise` (and the sphere intersection) take square roots, so
they are embedded over `ℝ` with `Real.sqrt`. -/

/-- `Vec3` (utility.rs) with real components. -/
structure Vec3R where
  x : ℝ
  y : ℝ
  z : ℝ

/-- `Vec3::dot` (utility.rs). -/
def Vec3R.dot (a b : Vec3R) : ℝ :=
  a.x * b.x + a.y * b.y + a.z * b.z

/-- `Vec3::cross` (utility.rs lines 26-32), exactly as written in the source:
note the `z` component is `self.z * rhs.y - self.y * rhs.x`. -/
def Vec3R.cross (a b : Vec3R) : Vec3R :=
  ⟨a.y * b.z - a.z * b.y, a.z * b.x - a.x * b.z, a.z * b.y - a.y * b.x⟩

/-- Modelled from the spec (§4.7 and the Vec3 doc comment "Calculates the
cross product"): the standard mathematical cross product, used as the
specification side when checking `Vec3::cross`. -/
def crossSpec (a b : Vec3R) : Vec3R :=
  ⟨a.y * b.z - a.z * b.y, a.z * b.x - a.x * b.z, a.x * b.y - a.y * b.x⟩

instance : Sub Vec3R :=
  ⟨fun a b => ⟨a.x - b.x, a.y - b.y, a.z - b.z⟩⟩

instance : Add Vec3R :=
  ⟨fun a b => ⟨a.x + b.x, a.y + b.y, a.z + b.z⟩⟩

instance : Neg Vec3R :=
  ⟨fun a => ⟨-a.x, -a.y, -a.z⟩⟩

/-- `impl Mul<f64> for Vec3` (utility.rs). -/
instance : HMul Vec3R ℝ Vec3R :=
  ⟨fun a k => ⟨a.x * k, a.y * k, a.z * k⟩⟩

/-- `impl Mul<Vec3> for f64` (utility.rs). -/
instance : HMul ℝ Vec3R Vec3R :=
  ⟨fun k a => ⟨k * a.x, k * a.y, k * a.z⟩⟩

/-- `Vec3::mag` (utility.rs). -/
noncomputable def Vec3R.mag (a : Vec3R) : ℝ :=
  Real.sqrt (a.dot a)

/-- `Vec3::normalise` (utility.rs): `self / self.mag()` componentwise. -/
noncomputable def Vec3R.normalise (a : Vec3R) : Vec3R :=
  ⟨a.x / a.mag, a.y / a.mag, a.z / a.mag⟩

/-- `Ray` (utility.rs) with real components. -/
structure RayR where
  origin : Vec3R
  direction : Vec3R

/-- `Colour` (utility.rs) with real components. -/
structure ColourR where
  r : ℝ
  g : ℝ
  b : ℝ

/-- `Colour::black` (utility.rs). -/
def ColourR.black : ColourR := ⟨0, 0, 0⟩

instance : Add ColourR :=
  ⟨fun a b => ⟨a.r + b.r, a.g + b.g, a.b + b.b⟩⟩

/-- `impl Mul for Colour` (utility.rs): componentwise. -/
instance : Mul ColourR :=
  ⟨fun a b => ⟨a.r * b.r, a.g * b.g, a.b * b.b⟩⟩

/-- `impl Mul<f64> for Colour` (utility.rs). -/
instance : HMul ColourR ℝ ColourR :=
  ⟨fun a k => ⟨a.r * k, a.g * k, a.b * k⟩⟩

/-- `impl Mul<Colour> for f64` (utility.rs). -/
instance : HMul ℝ ColourR ColourR :=
  ⟨fun k a => ⟨k * a.r, k * a.g, k * a.b⟩⟩

/-! ## camera.rs : `Location`, `compute_basis_vectors` -/

/-- `Location` (camera.rs lines 31-38). -/
structure LocationR where
  eye : Vec3R
  centre : Vec3R
  up : Vec3R

/-- `compute_basis_vectors` (camera.rs lines 43-48). -/
noncomputable def compute_basis_vectors (l : LocationR) : Vec3R × Vec3R × Vec3R :=
  let w := (l.eye - l.centre).normalise
  let u := (l.up.cross w).normalise
  let v := w.cross u
  (u, v, w)

/-! ## geometry.rs over `ℝ` : `Sphere` -/

/-- `EPSILON = 0.0001` (geometry.rs) as a real number. -/
noncomputable def epsR : ℝ := 1 / 10000

/-- `Sphere` (geometry.rs). -/
structure SphereR where
  centre : Vec3R
  radius : ℝ
  colour : ColourR

/-- `Intersection` (geometry.rs) with a real distance. -/
structure InterR where
  ray : RayR
  t : ℝ
  colour : ColourR

/-- `impl Geometry for Sphere :: hit` (geometry.rs lines 97-130). -/
noncomputable def SphereR.hit (s : SphereR) (ray : RayR) : Option InterR :=
  let offset := ray.origin - s.centre
  let a := ray.direction.dot ray.direction
  let b := 2 * offset.dot ray.direction
  let c := offset.dot offset - s.radius * s.radius
  let discriminator := b * b - 4 * a * c
  if 0 ≤ discriminator then
    let e := Real.sqrt discriminator
    let denominator := 2 * a
    let t := (-b - e) / denominator
    if t > epsR then some ⟨ray, t, s.colour⟩
    else
      let t2 := (-b + e) / denominator
      if t2 > epsR then some ⟨ray, t2, s.colour⟩
      else none
  else none

/-- The quadratic coefficient `a = d·d` of `Sphere::hit` (geometry.rs
line 101). -/
def sphA (ray : RayR) : ℝ :=
  ray.direction.dot ray.direction

/-- The quadratic coefficient `b = 2(o-c)·d` of `Sphere::hit` (geometry.rs
line 102). -/
def sphB (s : SphereR) (ray : RayR) : ℝ :=
  2 * (ray.origin - s.centre).dot ray.direction

/-- The quadratic coefficient `c = (o-c)·(o-c) - r²` of `Sphere::hit`
(geometry.rs line 103). -/
def sphC (s : SphereR) (ray : RayR) : ℝ :=
  (ray.origin - s.centre).dot (ray.origin - s.centre) - s.radius * s.radius

/-- The discriminant `b² - 4ac` of `Sphere::hit` (geometry.rs line 104). -/
def sphDisc (s : SphereR) (ray : RayR) : ℝ :=
  sphB s ray * sphB s ray - 4 * sphA ray * sphC s ray

/-- The root `(-b - √disc) / (2a)` tried first by `Sphere::hit` (geometry.rs
line 110). -/
noncomputable def sphR1 (s : SphereR) (ray : RayR) : ℝ :=
  (-sphB s ray - Real.sqrt (sphDisc s ray)) / (2 * sphA ray)

/-- The root `(-b + √disc) / (2a)` tried second by `Sphere::hit` (geometry.rs
line 119). -/
noncomputable def sphR2 (s : SphereR) (ray : RayR) : ℝ :=
  (-sphB s ray + Real.sqrt (sphDisc s ray)) / (2 * sphA ray)

/-! ## brdf.rs : `Lambertian`, `GlossySpecular` -/

/-- `Lambertian` (brdf.rs lines 31-33). -/
structure LambertianR where
  rho : ColourR

/-- `Lambertian::new` (brdf.rs lines 36-39). -/
def LambertianR.new (reflectance : ℝ) (colour : ColourR) : LambertianR :=
  ⟨reflectance * colour⟩

/-- `Lambertian::call` (brdf.rs lines 43-45): `rho * FRAC_1_PI`, ignoring
the intersection and directions. -/
noncomputable def LambertianR.call (l : LambertianR) : ColourR :=
  l.rho * (1 / Real.pi)

/-- `GlossySpecular` (brdf.rs lines 55-58). -/
structure GlossySpecularR where
  rho : ColourR
  exponent : ℝ

/-- `GlossySpecular::new` (brdf.rs lines 61-67). -/
def GlossySpecularR.new (reflectance shininess : ℝ) (colour : ColourR) :
    GlossySpecularR :=
  ⟨reflectance * colour, shininess⟩

/-- `GlossySpecular::call` (brdf.rs lines 70-80); `normal` is
`hit.normal` and `powf` is `Real.rpow`. -/
noncomputable def GlossySpecularR.call (gs : GlossySpecularR)
    (normal in_dir out_dir : Vec3R) : ColourR :=
  let n_dot_in := normal.dot in_dir
  let r := -in_dir + (((2 : ℝ) * normal : Vec3R) * n_dot_in : Vec3R)
  let r_dot_out := r.dot out_dir
  if r_dot_out > 0 then gs.rho * Real.rpow r_dot_out gs.exponent
  else ColourR.black

/-! ## light.rs and material.rs : lights and shading

The `dyn Light` trait objects of the scene (light.rs) form a closed sum of
the two implementations, `Ambient` and `PointLight`.  The `Intersection` of
this revision carries the hit point, the surface normal and a back-reference
`hit.world`; the back-reference is embedded as an explicit `WorldR` argument
threaded to the same places the source reads `hit.world` (the scene is
immutable during shading, so this is observationally identical). -/

/-- The `dyn Light` sum: `Ambient { scale, colour }` and
`PointLight { scale, colour, location }` (light.rs). -/
inductive LightR where
  | ambient (scale : ℝ) (colour : ColourR)
  | point (scale : ℝ) (colour : ColourR) (location : Vec3R)

/-- The scene data that shading reads through `hit.world`: the objects
(each embedded as its `hit` distance function), the ambient light and the
light list (world.rs revision used by material.rs). -/
structure WorldR where
  objects : List (RayR → Option ℝ)
  ambient : LightR
  lights : List LightR

/-- The `Intersection` fields that `Matte::shade`/`Phong::shade` read,
minus the `world` back-reference (passed explicitly). -/
structure HitCtx where
  ray : RayR
  hit_point : Vec3R
  normal : Vec3R

/-- `Light::direction` (light.rs lines 35-38 and 74-76). -/
noncomputable def LightR.dirToLight : LightR → HitCtx → Vec3R
  | LightR.ambient _ _, _ => ⟨0, 0, 0⟩
  | LightR.point _ _ loc, hit => (loc - hit.hit_point).normalise

/-- `Light::radiance` (light.rs lines 40-42 and 78-81): `scale * colour`
for both implementations. -/
noncomputable def LightR.radiance : LightR → ColourR
  | LightR.ambient s c => s * c
  | LightR.point s c _ => s * c

/-- `Light::in_shadow` (light.rs lines 44-46 and 83-91): `False` for
`Ambient`; for `PointLight`, some object's hit distance `t` satisfies
`t² < |location - ray.origin|²`. -/
def LightR.in_shadow : LightR → RayR → WorldR → Prop
  | LightR.ambient _ _, _, _ => False
  | LightR.point _ _ loc, ray, w =>
    let offset := loc - ray.origin
    let distance_squared := offset.dot offset
    ∃ o ∈ w.objects, ∃ t, o ray = some t ∧ t * t < distance_squared

/-- `Matte` (material.rs lines 27-30). -/
structure MatteR where
  ambient : LambertianR
  diffuse : LambertianR

/-- `Matte::new` (material.rs lines 40-44). -/
def MatteR.new (ka kd : ℝ) (colour : ColourR) : MatteR :=
  ⟨LambertianR.new ka colour, LambertianR.new kd colour⟩

open scoped Classical in
/-- The closure folded over the lights by `Matte::shade` (material.rs
lines 52-69), named for the embedding. -/
noncomputable def matteStep (m : MatteR) (w : WorldR) (hit : HitCtx)
    (accum : ColourR) (l : LightR) : ColourR :=
  let in_dir := l.dirToLight hit
  let angle := hit.normal.dot in_dir
  if angle > 0 then
    if ¬ l.in_shadow ⟨hit.hit_point, in_dir⟩ w then
      accum + m.diffuse.call * l.radiance * angle
    else accum
  else accum

/-- `Matte::shade` (material.rs lines 48-70).  `w` stands for `hit.world`. -/
noncomputable def MatteR.shade (m : MatteR) (w : WorldR) (hit : HitCtx) : ColourR :=
  let light := m.ambient.rho * w.ambient.radiance
  w.lights.foldl (matteStep m w hit) light

/-- `Phong` (material.rs lines 75-79). -/
structure PhongR where
  ambient : LambertianR
  diffuse : LambertianR
  specular : GlossySpecularR

/-- `Phong::new` (material.rs lines 82-92). -/
def PhongR.new (ka kd ks shininess : ℝ) (colour : ColourR) : PhongR :=
  ⟨LambertianR.new ka colour, LambertianR.new kd colour,
    GlossySpecularR.new ks shininess colour⟩

open scoped Classical in
/-- The closure folded over the lights by `Phong::shade` (material.rs
lines 99-117), named for the embedding; `out_dir = -hit.ray.direction`
feeds the specular term. -/
noncomputable def phongStep (p : PhongR) (w : WorldR) (hit : HitCtx)
    (accum : ColourR) (l : LightR) : ColourR :=
  let out_dir := -hit.ray.direction
  let in_dir := l.dirToLight hit
  let angle := hit.normal.dot in_dir
  if angle > 0 then
    if ¬ l.in_shadow ⟨hit.hit_point, in_dir⟩ w then
      accum + (p.diffuse.call + p.specular.call hit.normal in_dir out_dir) *
        l.radiance * angle
    else accum
  else accum

/-- `Phong::shade` (material.rs lines 95-118).  `w` stands for `hit.world`. -/
noncomputable def PhongR.shade (p : PhongR) (w : WorldR) (hit : HitCtx) : ColourR :=
  let light := p.ambient.rho * w.ambient.radiance
  w.lights.foldl (phongStep p w hit) light

/-! ## Theorems -/

@[simp]
theorem Vec3Q.subQ_def (a b : Vec3Q) :
    a - b = ⟨a.x - b.x, a.y - b.y, a.z - b.z⟩ := rfl

@[simp]
theorem Vec3Q.addQ_def (a b : Vec3Q) :
    a + b = ⟨a.x + b.x, a.y + b.y, a.z + b.z⟩ := rfl

/-- C1: counterexample.  For the axis-aligned cuboid `[-3,-1]³` and the ray
from the origin with direction `(1,1,1)` (all components non-zero), every
per-axis slab parameter is negative: `t_min = -3 < t_max = -1`, so the claim
(which requires `t_max > ε` for a hit and asserts every returned `t` exceeds
`ε`) says there is no hit, yet `Cuboid::hit` returns a hit with
`t = t_max = -1 ≤ ε`. -/
theorem cuboid_hit_epsilon_cex :
    ((1 : ℚ) ≠ 0) ∧
    CuboidQ.hit ⟨⟨-3, -3, -3⟩, ⟨-1, -1, -1⟩, ColourQ.black⟩
        ⟨⟨0, 0, 0⟩, ⟨1, 1, 1⟩⟩ =
      some ⟨⟨⟨0, 0, 0⟩, ⟨1, 1, 1⟩⟩, -1, ColourQ.black⟩ ∧
    ¬((-1 : ℚ) > EPSILON) := by
  refine ⟨by norm_num, ?_, by norm_num [EPSILON]⟩
  norm_num [CuboidQ.hit, Vec3Q.recipScale, min_def, max_def]

/-- C1 (amended): for every cuboid and every ray whose direction components
are all non-zero, `Cuboid::hit` reports a hit iff `t_min < t_max` (with
`t_min` the maximum of the per-axis near slab parameters and `t_max` the
minimum of the per-axis far ones, computed by dividing by the direction
components), with NO epsilon or positivity filter on `t_max`; it returns
`t = t_max` when `t_min < 0` and `t = t_min` otherwise, and the returned `t`
may be `≤ ε` (even negative). -/
theorem cuboid_hit_slab_amended (c : CuboidQ) (ray : RayQ)
    (hx : ray.direction.x ≠ 0) (hy : ray.direction.y ≠ 0)
    (hz : ray.direction.z ≠ 0) :
    CuboidQ.hit c ray =
      (let t_xn := Min.min ((c.min.x - ray.origin.x) / ray.direction.x)
        ((c.max.x - ray.origin.x) / ray.direction.x)
       let t_xf := Max.max ((c.min.x - ray.origin.x) / ray.direction.x)
        ((c.max.x - ray.origin.x) / ray.direction.x)
       let t_yn := Min.min ((c.min.y - ray.origin.y) / ray.direction.y)
        ((c.max.y - ray.origin.y) / ray.direction.y)
       let t_yf := Max.max ((c.min.y - ray.origin.y) / ray.direction.y)
        ((c.max.y - ray.origin.y) / ray.direction.y)
       let t_zn := Min.min ((c.min.z - ray.origin.z) / ray.direction.z)
        ((c.max.z - ray.origin.z) / ray.direction.z)
       let t_zf := Max.max ((c.min.z - ray.origin.z) / ray.direction.z)
        ((c.max.z - ray.origin.z) / ray.direction.z)
       let t_min := Max.max t_xn (Max.max t_yn t_zn)
       let t_max := Min.min t_xf (Min.min t_yf t_zf)
       if t_min < t_max then
         some ⟨ray, if t_min < 0 then t_max else t_min, c.colour⟩
       else none) := by
  simp only [CuboidQ.hit, Vec3Q.recipScale, div_eq_mul_inv, one_mul]

/-- C1: witness for the amended theorem at a concrete cuboid and ray with
non-zero direction components. -/
theorem cuboid_hit_slab_amended_witness :
    CuboidQ.hit ⟨⟨1, 1, 1⟩, ⟨2, 2, 2⟩, ColourQ.black⟩
        ⟨⟨0, 0, 0⟩, ⟨1, 1, 1⟩⟩ =
      some ⟨⟨⟨0, 0, 0⟩, ⟨1, 1, 1⟩⟩, 1, ColourQ.black⟩ :=
  (cuboid_hit_slab_amended ⟨⟨1, 1, 1⟩, ⟨2, 2, 2⟩, ColourQ.black⟩
    ⟨⟨0, 0, 0⟩, ⟨1, 1, 1⟩⟩ (by norm_num) (by norm_num) (by norm_num)).trans
    (by norm_num [min_def, max_def])

/-- C7: counterexample.  For the plane through the origin with normal
`(0,0,-1)` and the PARALLEL ray from `(0,0,100)` with direction `(1,0,0)`
(`direction·normal = 0`), the source computes
`t = (point - origin)·normal / 0 = 100/0 = +∞`, and `+∞ > EPSILON` holds in
`f64`, so `Plane::hit` returns a hit with `t = +∞`: parallel rays are NOT
all "naturally rejected by the comparison", contrary to the claim. -/
theorem plane_hit_parallel_cex :
    (⟨⟨0, 0, 100⟩, ⟨1, 0, 0⟩⟩ : RayQ).direction.dot
        (⟨⟨0, 0, 0⟩, ⟨0, 0, -1⟩, ColourQ.white⟩ : PlaneQ).normal = 0 ∧
    PlaneQ.hitF ⟨⟨0, 0, 0⟩, ⟨0, 0, -1⟩, ColourQ.white⟩
        ⟨⟨0, 0, 100⟩, ⟨1, 0, 0⟩⟩ =
      some ⟨⟨⟨0, 0, 100⟩, ⟨1, 0, 0⟩⟩, FExt.pinf, ColourQ.white⟩ := by
  constructor
  · norm_num [Vec3Q.dot]
  · norm_num [PlaneQ.hitF, fdivExt, FExt.gtEps, Vec3Q.dot]

/-- C7 (amended): `Plane::hit` computes
`t = (point - origin)·normal / (direction·normal)` under IEEE semantics and
returns a hit exactly when the `f64` comparison `t > ε = 1e-4` holds.  On
non-parallel rays (`direction·normal ≠ 0`) this coincides with the exact
finite-arithmetic model (hit with the rational `t` iff `t > ε`).  A
parallel ray is rejected only when `(point - origin)·normal ≤ 0` (`t` is
`-∞` or NaN, which fail the comparison); a parallel ray with
`(point - origin)·normal > 0` gives `t = +∞`, which passes the comparison,
and a hit with `t = +∞` is returned.  For the plane through the origin with
normal `(0,0,-1)` and the ray from `(0,0,100)` with direction `(0,0,-1)` it
returns `t = 100` exactly. -/
theorem plane_hit_amended :
    (∀ (p : PlaneQ) (ray : RayQ), ray.direction.dot p.normal ≠ 0 →
      PlaneQ.hitF p ray =
        (PlaneQ.hit p ray).map (fun i => ⟨i.ray, FExt.val i.t, i.colour⟩)) ∧
    (∀ (p : PlaneQ) (ray : RayQ), ray.direction.dot p.normal ≠ 0 →
      PlaneQ.hitF p ray =
        (let t := (p.point - ray.origin).dot p.normal /
            ray.direction.dot p.normal
         if t > EPSILON then some ⟨ray, FExt.val t, p.colour⟩ else none)) ∧
    (∀ (p : PlaneQ) (ray : RayQ), ray.direction.dot p.normal = 0 →
      ((p.point - ray.origin).dot p.normal ≤ 0 →
        PlaneQ.hitF p ray = none) ∧
      (0 < (p.point - ray.origin).dot p.normal →
        PlaneQ.hitF p ray = some ⟨ray, FExt.pinf, p.colour⟩)) ∧
    PlaneQ.hitF ⟨⟨0, 0, 0⟩, ⟨0, 0, -1⟩, ColourQ.white⟩
        ⟨⟨0, 0, 100⟩, ⟨0, 0, -1⟩⟩ =
      some ⟨⟨⟨0, 0, 100⟩, ⟨0, 0, -1⟩⟩, FExt.val 100, ColourQ.white⟩ := by
  refine ⟨?_, ?_, ?_, ?_⟩
  · intro p ray h
    simp only [PlaneQ.hitF, PlaneQ.hit, fdivExt, if_pos h, FExt.gtEps]
    by_cases ht : (p.point - ray.origin).dot p.normal /
        ray.direction.dot p.normal > EPSILON <;>
      simp [ht]
  · intro p ray h
    simp only [PlaneQ.hitF, fdivExt, if_pos h, FExt.gtEps]
    by_cases ht : (p.point - ray.origin).dot p.normal /
        ray.direction.dot p.normal > EPSILON <;>
      simp [ht]
  · intro p ray h
    constructor
    · intro hnum
      simp only [Vec3Q.subQ_def] at hnum
      rcases lt_or_eq_of_le hnum with hlt | heq
      · simp [PlaneQ.hitF, fdivExt, h, FExt.gtEps, not_lt.mpr hnum, hlt]
      · simp [PlaneQ.hitF, fdivExt, h, FExt.gtEps, heq]
    · intro hnum
      simp only [Vec3Q.subQ_def] at hnum
      simp [PlaneQ.hitF, fdivExt, h, FExt.gtEps, hnum]
  · norm_num [PlaneQ.hitF, fdivExt, FExt.gtEps, Vec3Q.dot, EPSILON]

/-- C7: witness, applying the amended theorem at a rejected parallel ray
(numerator `≤ 0`) and at the non-parallel scenario-B input. -/
theorem plane_hit_amended_witness :
    PlaneQ.hitF ⟨⟨0, 0, 0⟩, ⟨0, 0, 1⟩, ColourQ.white⟩
        ⟨⟨0, 0, 100⟩, ⟨1, 0, 0⟩⟩ = none ∧
    PlaneQ.hitF ⟨⟨0, 0, 0⟩, ⟨0, 0, -1⟩, ColourQ.white⟩
        ⟨⟨0, 0, 100⟩, ⟨0, 0, -1⟩⟩ =
      (PlaneQ.hit ⟨⟨0, 0, 0⟩, ⟨0, 0, -1⟩, ColourQ.white⟩
          ⟨⟨0, 0, 100⟩, ⟨0, 0, -1⟩⟩).map
        (fun i => ⟨i.ray, FExt.val i.t, i.colour⟩) :=
  ⟨(plane_hit_amended.2.2.1 ⟨⟨0, 0, 0⟩, ⟨0, 0, 1⟩, ColourQ.white⟩
      ⟨⟨0, 0, 100⟩, ⟨1, 0, 0⟩⟩ (by norm_num [Vec3Q.dot])).1
      (by norm_num [Vec3Q.dot]),
    plane_hit_amended.1 ⟨⟨0, 0, 0⟩, ⟨0, 0, -1⟩, ColourQ.white⟩
      ⟨⟨0, 0, 100⟩, ⟨0, 0, -1⟩⟩ (by norm_num [Vec3Q.dot])⟩

/-- C8: `PointLight::in_shadow` returns `true` iff some scene object's hit on
the shadow ray has distance `t` with `t² < |location - origin|²` (the squared
distance from the ray origin to the light). -/
theorem in_shadow_iff (l : PointLightQ) (ray : RayQ) (w : WorldQ) :
    l.in_shadow ray w = true ↔
      ∃ o ∈ w.objects, ∃ i, o ray = some i ∧
        i.t * i.t <
          (l.location - ray.origin).dot (l.location - ray.origin) := by
  simp only [PointLightQ.in_shadow, List.any_eq_true]
  constructor
  · rintro ⟨o, ho, hsat⟩
    cases h : o ray with
    | none => rw [h] at hsat; simp at hsat
    | some i =>
      rw [h] at hsat
      exact ⟨o, ho, i, h, by simpa using hsat⟩
  · rintro ⟨o, ho, i, h, hlt⟩
    exact ⟨o, ho, by rw [h]; simpa using hlt⟩

/-- C8: witness.  A single unit-length hit at distance 1 in front of a light
at distance 10 puts the point in shadow. -/
theorem in_shadow_iff_witness :
    PointLightQ.in_shadow ⟨1, ColourQ.white, ⟨10, 0, 0⟩⟩
        ⟨⟨0, 0, 0⟩, ⟨1, 0, 0⟩⟩
        ⟨ColourQ.black, [fun r => some ⟨r, 1, ColourQ.black⟩]⟩ = true :=
  (in_shadow_iff ⟨1, ColourQ.white, ⟨10, 0, 0⟩⟩ ⟨⟨0, 0, 0⟩, ⟨1, 0, 0⟩⟩
      ⟨ColourQ.black, [fun r => some ⟨r, 1, ColourQ.black⟩]⟩).mpr
    ⟨_, List.mem_singleton_self _, ⟨⟨⟨0, 0, 0⟩, ⟨1, 0, 0⟩⟩, 1, ColourQ.black⟩,
      rfl, by norm_num [Vec3Q.dot]⟩

/-- Unfolding `specNearestHit` on a cons whose tail has no minimum. -/
theorem specNearestHit_cons_none (c : Inter0) (cs : List Inter0)
    (h : specNearestHit cs = none) : specNearestHit (c :: cs) = some c := by
  simp [specNearestHit, h]

/-- Unfolding `specNearestHit` on a cons whose tail has minimum `m`. -/
theorem specNearestHit_cons_some (c : Inter0) (cs : List Inter0) (m : Inter0)
    (h : specNearestHit cs = some m) :
    specNearestHit (c :: cs) = if c.t ≤ m.t then some c else some m := by
  simp [specNearestHit, h]

/-- `specNearestHit` returns `none` exactly on the empty candidate list. -/
theorem specNearestHit_none_iff (l : List Inter0) :
    specNearestHit l = none ↔ l = [] := by
  cases l with
  | nil => simp [specNearestHit]
  | cons c cs =>
    cases h : specNearestHit cs with
    | none => simp [specNearestHit_cons_none c cs h]
    | some m =>
      rw [specNearestHit_cons_some c cs m h]
      split_ifs <;> simp

/-- Inserting one `cmp::min_by` step in front of a candidate list does not
change the first-found minimum. -/
theorem specNearestHit_step (c d : Inter0) (ds : List Inter0) :
    specNearestHit (minByStepQ c d :: ds) = specNearestHit (c :: d :: ds) := by
  rcases hds : specNearestHit ds with _ | m
  · have hnil : ds = [] := (specNearestHit_none_iff ds).mp hds
    subst hnil
    simp only [specNearestHit, minByStepQ]
    split_ifs <;> first | rfl | (exfalso; linarith)
  · by_cases h1 : d.t ≤ m.t
    · have hd : specNearestHit (d :: ds) = some d := by
        rw [specNearestHit_cons_some d ds m hds, if_pos h1]
      rw [specNearestHit_cons_some _ _ _ hds,
        specNearestHit_cons_some _ _ _ hd]
      unfold minByStepQ
      split_ifs <;> first | rfl | (exfalso; linarith)
    · have hd : specNearestHit (d :: ds) = some m := by
        rw [specNearestHit_cons_some d ds m hds, if_neg h1]
      rw [specNearestHit_cons_some _ _ _ hds,
        specNearestHit_cons_some _ _ _ hd]
      unfold minByStepQ
      split_ifs <;> first | rfl | (exfalso; linarith)

/-- The `min_by` fold of `world.rs` computes the first-found minimum-`t`
candidate. -/
theorem minByQ_eq_spec (l : List Inter0) : minByQ l = specNearestHit l := by
  cases l with
  | nil => rfl
  | cons c cs =>
    induction cs generalizing c with
    | nil => rfl
    | cons d ds ih =>
      have h1 : minByQ (c :: d :: ds) = minByQ (minByStepQ c d :: ds) := rfl
      rw [h1, ih (minByStepQ c d), specNearestHit_step]

/-- `specNearestHit` returns a member of the list that is `≤` every member
in `t`. -/
theorem specNearestHit_mem_min (l : List Inter0) :
    ∀ i, specNearestHit l = some i → i ∈ l ∧ ∀ j ∈ l, i.t ≤ j.t := by
  induction l with
  | nil => intro i h; simp [specNearestHit] at h
  | cons c cs ih =>
    intro i h
    cases hcs : specNearestHit cs with
    | none =>
      rw [specNearestHit_cons_none c cs hcs] at h
      have hnil : cs = [] := (specNearestHit_none_iff cs).mp hcs
      subst hnil
      simp only [Option.some.injEq] at h
      subst h
      simp
    | some m =>
      rw [specNearestHit_cons_some c cs m hcs] at h
      obtain ⟨hm, hmin⟩ := ih m hcs
      by_cases hc : c.t ≤ m.t
      · rw [if_pos hc] at h
        simp only [Option.some.injEq] at h
        subst h
        refine ⟨List.mem_cons_self _ _, ?_⟩
        intro j hj
        rcases List.mem_cons.mp hj with hj | hj
        · subst hj; exact le_refl _
        · exact le_trans hc (hmin j hj)
      · rw [if_neg hc] at h
        simp only [Option.some.injEq] at h
        subst h
        refine ⟨List.mem_cons_of_mem _ hm, ?_⟩
        intro j hj
        rcases List.mem_cons.mp hj with hj | hj
        · subst hj; exact le_of_lt (lt_of_not_le hc)
        · exact hmin j hj

/-- C5: counterexample.  In a world holding the cuboid `[-3,-1]³` and a
plane, the ray from the origin with direction `(1,1,1)` produces the hit
candidates `t = -1` (cuboid, behind-origin, unfiltered) and `t = 2` (plane).
`World::hit_objects` returns the candidate with `t = -1`, which is not
positive, even though a candidate with positive `t = 2` exists — so the
result is not "the minimum positive t among the hit results". -/
theorem hit_objects_min_positive_cex :
    WorldQ.hit_objects
        ⟨ColourQ.black,
          [CuboidQ.hit ⟨⟨-3, -3, -3⟩, ⟨-1, -1, -1⟩, ColourQ.black⟩,
           PlaneQ.hit ⟨⟨2, 2, 2⟩, ⟨1, 1, 1⟩, ColourQ.white⟩]⟩
        ⟨⟨0, 0, 0⟩, ⟨1, 1, 1⟩⟩ =
      some ⟨⟨⟨0, 0, 0⟩, ⟨1, 1, 1⟩⟩, -1, ColourQ.black⟩ ∧
    PlaneQ.hit ⟨⟨2, 2, 2⟩, ⟨1, 1, 1⟩, ColourQ.white⟩ ⟨⟨0, 0, 0⟩, ⟨1, 1, 1⟩⟩ =
      some ⟨⟨⟨0, 0, 0⟩, ⟨1, 1, 1⟩⟩, 2, ColourQ.white⟩ ∧
    ¬(0 < (-1 : ℚ)) ∧ 0 < (2 : ℚ) := by
  have hcub : CuboidQ.hit ⟨⟨-3, -3, -3⟩, ⟨-1, -1, -1⟩, ColourQ.black⟩
      ⟨⟨0, 0, 0⟩, ⟨1, 1, 1⟩⟩ =
      some ⟨⟨⟨0, 0, 0⟩, ⟨1, 1, 1⟩⟩, -1, ColourQ.black⟩ := by
    norm_num [CuboidQ.hit, Vec3Q.recipScale, min_def, max_def]
  have hpl : PlaneQ.hit ⟨⟨2, 2, 2⟩, ⟨1, 1, 1⟩, ColourQ.white⟩
      ⟨⟨0, 0, 0⟩, ⟨1, 1, 1⟩⟩ =
      some ⟨⟨⟨0, 0, 0⟩, ⟨1, 1, 1⟩⟩, 2, ColourQ.white⟩ := by
    norm_num [PlaneQ.hit, Vec3Q.dot, EPSILON]
  refine ⟨?_, hpl, by norm_num, by norm_num⟩
  simp only [WorldQ.hit_objects, List.filterMap, hcub, hpl]
  norm_num [minByQ, minByStepQ]

/-- C5 (amended): for every world and ray, `World::hit_objects` returns the
intersection with the minimum `t` among the hit results of all owned objects
(NOT merely among the positive ones: each geometry is responsible for its own
filtering, and `Cuboid::hit` can contribute `t ≤ 0`), ties broken by
iteration order with the first-found candidate winning; it returns `None`
iff no object's hit returns a result. -/
theorem hit_objects_spec (w : WorldQ) (ray : RayQ) :
    w.hit_objects ray =
      specNearestHit (w.objects.filterMap (fun o => o ray)) ∧
    (w.hit_objects ray = none ↔ ∀ o ∈ w.objects, o ray = none) ∧
    ∀ i, w.hit_objects ray = some i →
      (∃ o ∈ w.objects, o ray = some i) ∧
      ∀ o ∈ w.objects, ∀ j, o ray = some j → i.t ≤ j.t := by
  have h1 : w.hit_objects ray =
      specNearestHit (w.objects.filterMap (fun o => o ray)) :=
    minByQ_eq_spec _
  refine ⟨h1, ?_, ?_⟩
  · rw [h1, specNearestHit_none_iff, List.filterMap_eq_nil_iff]
  · intro i hi
    rw [h1] at hi
    obtain ⟨hmem, hmin⟩ := specNearestHit_mem_min _ _ hi
    refine ⟨List.mem_filterMap.mp hmem, ?_⟩
    intro o ho j hj
    exact hmin j (List.mem_filterMap.mpr ⟨o, ho, hj⟩)

/-- C5: witness, applying the amended theorem to a concrete one-plane world
and discharging the `some`-case hypothesis there. -/
theorem hit_objects_spec_witness :
    (∃ o ∈ [PlaneQ.hit (⟨⟨2, 2, 2⟩, ⟨1, 1, 1⟩, ColourQ.white⟩ : PlaneQ)],
      o ⟨⟨0, 0, 0⟩, ⟨1, 1, 1⟩⟩ =
        some ⟨⟨⟨0, 0, 0⟩, ⟨1, 1, 1⟩⟩, 2, ColourQ.white⟩) ∧
    ∀ o ∈ [PlaneQ.hit (⟨⟨2, 2, 2⟩, ⟨1, 1, 1⟩, ColourQ.white⟩ : PlaneQ)],
      ∀ j, o ⟨⟨0, 0, 0⟩, ⟨1, 1, 1⟩⟩ = some j →
        (⟨⟨⟨0, 0, 0⟩, ⟨1, 1, 1⟩⟩, 2, ColourQ.white⟩ : Inter0).t ≤ j.t :=
  (hit_objects_spec
      ⟨ColourQ.black,
        [PlaneQ.hit (⟨⟨2, 2, 2⟩, ⟨1, 1, 1⟩, ColourQ.white⟩ : PlaneQ)]⟩
      ⟨⟨0, 0, 0⟩, ⟨1, 1, 1⟩⟩).2.2
    ⟨⟨⟨0, 0, 0⟩, ⟨1, 1, 1⟩⟩, 2, ColourQ.white⟩
    (by
      simp only [WorldQ.hit_objects, List.filterMap]
      norm_num [PlaneQ.hit, Vec3Q.dot, EPSILON, minByQ])

/-- A `cmp::min_by` step on two non-NaN distances succeeds and yields one of
its two non-NaN arguments. -/
theorem minByStepF_ok (a b : InterF) (ha : a.t ≠ FQ.nan) (hb : b.t ≠ FQ.nan) :
    ∃ m, minByStepF a b = Except.ok m ∧ m.t ≠ FQ.nan := by
  obtain ⟨qa, hqa⟩ : ∃ q, a.t = FQ.val q := by
    cases h : a.t with
    | nan => exact absurd h ha
    | val q => exact ⟨q, rfl⟩
  obtain ⟨qb, hqb⟩ : ∃ q, b.t = FQ.val q := by
    cases h : b.t with
    | nan => exact absurd h hb
    | val q => exact ⟨q, rfl⟩
  simp only [minByStepF, fcmp, hqa, hqb]
  cases compare qa qb with
  | lt => exact ⟨a, rfl, ha⟩
  | eq => exact ⟨a, rfl, ha⟩
  | gt => exact ⟨b, rfl, hb⟩

/-- The `min_by` reduction never panics when the accumulator and every
remaining candidate distance are non-NaN. -/
theorem minByFoldF_ok (l : List InterF) :
    ∀ a, a.t ≠ FQ.nan → (∀ c ∈ l, c.t ≠ FQ.nan) →
      ∃ m, minByFoldF a l = Except.ok m := by
  induction l with
  | nil => intro a ha _; exact ⟨a, rfl⟩
  | cons b bs ih =>
    intro a ha hl
    obtain ⟨m, hm, hmn⟩ :=
      minByStepF_ok a b ha (hl b (List.mem_cons_self _ _))
    obtain ⟨r, hr⟩ := ih m hmn (fun c hc => hl c (List.mem_cons_of_mem _ hc))
    exact ⟨r, by simp only [minByFoldF, hm, hr]⟩

/-- The `min_by` reduction panics as soon as the accumulated minimum is NaN
and at least one comparison remains. -/
theorem minByFoldF_err_left (a : InterF) (b : InterF) (bs : List InterF)
    (ha : a.t = FQ.nan) :
    minByFoldF a (b :: bs) = Except.error "distance is NaN" := by
  have hstep : minByStepF a b = Except.error "distance is NaN" := by
    simp only [minByStepF, fcmp, ha]
  simp only [minByFoldF, hstep]

/-- The `min_by` reduction panics whenever some remaining candidate distance
is NaN. -/
theorem minByFoldF_err_of_nan (l : List InterF) :
    ∀ a, a.t ≠ FQ.nan → (∃ c ∈ l, c.t = FQ.nan) →
      minByFoldF a l = Except.error "distance is NaN" := by
  induction l with
  | nil => intro a _ h; simp at h
  | cons b bs ih =>
    intro a ha hex
    by_cases hb : b.t = FQ.nan
    · obtain ⟨qa, hqa⟩ : ∃ q, a.t = FQ.val q := by
        cases h : a.t with
        | nan => exact absurd h ha
        | val q => exact ⟨q, rfl⟩
      have hstep : minByStepF a b = Except.error "distance is NaN" := by
        simp only [minByStepF, fcmp, hqa, hb]
      simp only [minByFoldF, hstep]
    · obtain ⟨c, hc, hcn⟩ := hex
      rcases List.mem_cons.mp hc with hc | hc
      · exact absurd (hc ▸ hcn) hb
      · obtain ⟨m, hm, hmn⟩ := minByStepF_ok a b ha hb
        simp only [minByFoldF, hm]
        exact ih m hmn ⟨c, hc, hcn⟩

/-- C10: counterexample.  With a single object whose hit distance is NaN,
`min_by` performs no comparison at all (`Iterator::reduce` returns a lone
element untouched), so `World::hit_objects` does NOT panic: it returns the
NaN-distance intersection. -/
theorem hit_objects_nan_cex :
    hitObjectsF [fun _ => some ⟨FQ.nan, ColourQ.black⟩]
        ⟨⟨0, 0, 0⟩, ⟨0, 0, -1⟩⟩ =
      Except.ok (some ⟨FQ.nan, ColourQ.black⟩) := rfl

/-- C10 (amended): `World::hit_objects` panics with "distance is NaN" iff at
least two hit candidates are produced and some candidate distance is NaN;
with exactly one candidate the candidate is returned even when its distance
is NaN (no comparison happens); and when every candidate distance is
non-NaN it never panics. -/
theorem hit_objects_nan_amended (objects : List (RayQ → Option InterF))
    (ray : RayQ) :
    ((∀ c ∈ objects.filterMap (fun o => o ray), c.t ≠ FQ.nan) →
      ∃ r, hitObjectsF objects ray = Except.ok r) ∧
    (∀ c, objects.filterMap (fun o => o ray) = [c] →
      hitObjectsF objects ray = Except.ok (some c)) ∧
    (2 ≤ (objects.filterMap (fun o => o ray)).length →
      (∃ c ∈ objects.filterMap (fun o => o ray), c.t = FQ.nan) →
      hitObjectsF objects ray = Except.error "distance is NaN") := by
  refine ⟨?_, ?_, ?_⟩
  · intro hok
    cases hc : objects.filterMap (fun o => o ray) with
    | nil => exact ⟨none, by simp [hitObjectsF, hc]⟩
    | cons c cs =>
      rw [hc] at hok
      obtain ⟨m, hm⟩ := minByFoldF_ok cs c
        (hok c (List.mem_cons_self _ _))
        (fun d hd => hok d (List.mem_cons_of_mem _ hd))
      exact ⟨some m, by simp [hitObjectsF, hc, hm, Except.map]⟩
  · intro c hc
    simp [hitObjectsF, hc, minByFoldF, Except.map]
  · intro hlen hex
    rcases hc : objects.filterMap (fun o => o ray) with _ | ⟨c, _ | ⟨d, ds⟩⟩
    · rw [hc] at hlen; simp at hlen
    · rw [hc] at hlen; simp at hlen
    · rw [hc] at hex
      simp only [hitObjectsF, hc]
      by_cases hcn : c.t = FQ.nan
      · rw [minByFoldF_err_left c d ds hcn]; rfl
      · obtain ⟨e, he, hen⟩ := hex
        rcases List.mem_cons.mp he with he | he
        · exact absurd (he ▸ hen) hcn
        · rw [minByFoldF_err_of_nan (d :: ds) c hcn ⟨e, he, hen⟩]; rfl

/-- C10: witness.  Two candidates, the second with a NaN distance: the
comparison reaches the NaN and the call panics. -/
theorem hit_objects_nan_amended_witness :
    hitObjectsF
        [fun _ => some ⟨FQ.val 1, ColourQ.black⟩,
         fun _ => some ⟨FQ.nan, ColourQ.black⟩]
        ⟨⟨0, 0, 0⟩, ⟨0, 0, -1⟩⟩ =
      Except.error "distance is NaN" :=
  (hit_objects_nan_amended
      [fun _ => some ⟨FQ.val 1, ColourQ.black⟩,
       fun _ => some ⟨FQ.nan, ColourQ.black⟩]
      ⟨⟨0, 0, 0⟩, ⟨0, 0, -1⟩⟩).2.2
    (by simp [List.filterMap])
    ⟨⟨FQ.nan, ColourQ.black⟩, by simp [List.filterMap], rfl⟩

/-- C4: `Samples::new` fills `indices` with `0..num_samples`, but `get_next`
uses those values to index the `samples` vector, which holds `num_sets` sets
— only 1 for `Regular`.  On the very first call for `Regular::new(25)`,
`count` becomes 1 and `samples.get(indices[1]) = samples.get(1)` is `None`,
so the `.unwrap()` panics (modelled by `none`), contradicting the claim that
`get_next` never panics for every generator configuration. -/
theorem get_next_regular_panics :
    (RegularG.new 25).gen_square_samples.get_next id = none := rfl

/-- C3: with `Jittered::new(25)` (grid spacing `1/5`) and every rng draw
equal to `9/10`, the first `get_next` call succeeds and returns a set of
exactly 25 points whose 21st point is `(17/10, 9/10)`: its x-coordinate
`17/10` exceeds the unit square bound `1` by `7/10`, which is not a marginal
excursion — the raw `[0,1)` jitter is added unscaled to the `1/n`-spaced
grid, so coordinates range up to `2 - 1/n`. -/
theorem jittered_samples_escape_unit_square :
    ∃ s st,
      ((JitteredG.new 25).gen_square_samples badJits).get_next id =
        some (s, st) ∧
      s.length = 25 ∧
      s.get? 20 = some ⟨17 / 10, 9 / 10⟩ ∧
      ¬((17 : ℚ) / 10 ≤ 1) := by
  refine ⟨_, _, rfl, ?_, ?_, by norm_num⟩
  · norm_num [JitteredG.new_square_set, RegularG.new_square_set,
      RegularG.new, JitteredG.new, List.range_succ]
  · norm_num [JitteredG.new_square_set, RegularG.new_square_set,
      RegularG.new, JitteredG.new, badJits, List.range_succ, Vec2Q.divS]

@[simp]
theorem Vec3R.subR_def (a b : Vec3R) :
    a - b = ⟨a.x - b.x, a.y - b.y, a.z - b.z⟩ := rfl

@[simp]
theorem Vec3R.addR_def (a b : Vec3R) :
    a + b = ⟨a.x + b.x, a.y + b.y, a.z + b.z⟩ := rfl

@[simp]
theorem Vec3R.neg_def (a : Vec3R) : -a = ⟨-a.x, -a.y, -a.z⟩ := rfl

@[simp]
theorem ColourR.add_def (a b : ColourR) :
    a + b = ⟨a.r + b.r, a.g + b.g, a.b + b.b⟩ := rfl

@[simp]
theorem ColourR.mul_def (a b : ColourR) :
    a * b = ⟨a.r * b.r, a.g * b.g, a.b * b.b⟩ := rfl

@[simp]
theorem ColourR.smul_def (k : ℝ) (a : ColourR) :
    k * a = (⟨k * a.r, k * a.g, k * a.b⟩ : ColourR) := rfl

@[simp]
theorem ColourR.smul_def' (a : ColourR) (k : ℝ) :
    a * k = (⟨a.r * k, a.g * k, a.b * k⟩ : ColourR) := rfl

/-- C2: evaluation at the failing input.  For the camera location with
`eye - centre = (0,3,4)` and `up = (1,0,0)`, `compute_basis_vectors` returns
`u = (0,-1,0)`, `v = (4/5,0,-4/5)`, `w = (0,3/5,4/5)`; but `u·w = -3/5 ≠ 0`,
so the basis is NOT orthonormal, and `Vec3::cross` disagrees with the
standard cross product (its `z` component is `self.z*rhs.y - self.y*rhs.x`
instead of `self.x*rhs.y - self.y*rhs.x`). -/
theorem basis_not_orthonormal_cex :
    compute_basis_vectors ⟨⟨0, 3, 4⟩, ⟨0, 0, 0⟩, ⟨1, 0, 0⟩⟩ =
      (⟨0, -1, 0⟩, ⟨4 / 5, 0, -(4 / 5)⟩, ⟨0, 3 / 5, 4 / 5⟩) ∧
    Vec3R.dot ⟨0, -1, 0⟩ ⟨0, 3 / 5, 4 / 5⟩ = -(3 / 5) ∧
    (-(3 / 5) : ℝ) ≠ 0 ∧
    Vec3R.cross ⟨1, 0, 0⟩ ⟨0, 3 / 5, 4 / 5⟩ ≠
      crossSpec ⟨1, 0, 0⟩ ⟨0, 3 / 5, 4 / 5⟩ := by
  have h25 : Real.sqrt 25 = 5 := by
    rw [show (25 : ℝ) = 5 ^ 2 by norm_num]
    exact Real.sqrt_sq (by norm_num)
  have h1625 : Real.sqrt (16 / 25) = 4 / 5 := by
    rw [show (16 / 25 : ℝ) = (4 / 5) ^ 2 by norm_num]
    exact Real.sqrt_sq (by norm_num)
  refine ⟨?_, by norm_num [Vec3R.dot], by norm_num, ?_⟩
  · simp only [compute_basis_vectors, Vec3R.normalise, Vec3R.mag,
      Vec3R.cross, Vec3R.dot, Vec3R.subR_def]
    norm_num [h25, h1625]
  · intro h
    have hz := congrArg Vec3R.z h
    norm_num [Vec3R.cross, crossSpec] at hz

/-- `Sphere::hit` written through the named quadratic data (definitional). -/
theorem sphereR_hit_eq (s : SphereR) (ray : RayR) :
    s.hit ray =
      if 0 ≤ sphDisc s ray then
        if sphR1 s ray > epsR then some ⟨ray, sphR1 s ray, s.colour⟩
        else if sphR2 s ray > epsR then some ⟨ray, sphR2 s ray, s.colour⟩
        else none
      else none := rfl

/-- C6: `Sphere::hit` solves the quadratic `a t² + b t + c = 0` with
`a = d·d`, `b = 2(o-c)·d`, `c = (o-c)·(o-c) - r²`: it returns `None` when
the discriminant is negative, otherwise the smaller root `(-b - √disc)/(2a)`
if it exceeds `ε = 1e-4`, else the larger root `(-b + √disc)/(2a)` if that
exceeds `ε`, else `None`; for a genuine ray (`a > 0`) the first root is the
smaller one and both are roots of the quadratic; and for the ray from
`(0,0,100)` with direction `(0,0,-1)` against the sphere of radius 50 at the
origin it returns `t = 50` exactly. -/
theorem sphere_hit_spec :
    (∀ (s : SphereR) (ray : RayR), sphDisc s ray < 0 → s.hit ray = none) ∧
    (∀ (s : SphereR) (ray : RayR), 0 ≤ sphDisc s ray →
      s.hit ray =
        if sphR1 s ray > epsR then some ⟨ray, sphR1 s ray, s.colour⟩
        else if sphR2 s ray > epsR then some ⟨ray, sphR2 s ray, s.colour⟩
        else none) ∧
    (∀ (s : SphereR) (ray : RayR), 0 < sphA ray → 0 ≤ sphDisc s ray →
      sphR1 s ray ≤ sphR2 s ray ∧
      sphA ray * sphR1 s ray ^ 2 + sphB s ray * sphR1 s ray + sphC s ray
        = 0 ∧
      sphA ray * sphR2 s ray ^ 2 + sphB s ray * sphR2 s ray + sphC s ray
        = 0) ∧
    SphereR.hit ⟨⟨0, 0, 0⟩, 50, ColourR.black⟩ ⟨⟨0, 0, 100⟩, ⟨0, 0, -1⟩⟩ =
      some ⟨⟨⟨0, 0, 100⟩, ⟨0, 0, -1⟩⟩, 50, ColourR.black⟩ := by
  refine ⟨?_, ?_, ?_, ?_⟩
  · intro s ray h
    rw [sphereR_hit_eq, if_neg (not_le.mpr h)]
  · intro s ray h
    rw [sphereR_hit_eq, if_pos h]
  · intro s ray ha hd
    have hsq : Real.sqrt (sphDisc s ray) ^ 2 =
        sphB s ray * sphB s ray - 4 * sphA ray * sphC s ray := by
      rw [Real.sq_sqrt hd]; rfl
    have hs0 : 0 ≤ Real.sqrt (sphDisc s ray) := Real.sqrt_nonneg _
    have ha' : (2 : ℝ) * sphA ray ≠ 0 := by positivity
    refine ⟨?_, ?_, ?_⟩
    · unfold sphR1 sphR2
      apply div_le_div_of_nonneg_right ?_ ?_ |>.trans_eq rfl
      · linarith
      · positivity
    · unfold sphR1
      field_simp
      linear_combination (2 * sphA ray ^ 2) * hsq
    · unfold sphR2
      field_simp
      linear_combination (2 * sphA ray ^ 2) * hsq
  · have hd : sphDisc ⟨⟨0, 0, 0⟩, 50, ColourR.black⟩
        ⟨⟨0, 0, 100⟩, ⟨0, 0, -1⟩⟩ = 10000 := by
      norm_num [sphDisc, sphA, sphB, sphC, Vec3R.dot]
    have hsqrt : Real.sqrt (sphDisc ⟨⟨0, 0, 0⟩, 50, ColourR.black⟩
        ⟨⟨0, 0, 100⟩, ⟨0, 0, -1⟩⟩) = 100 := by
      rw [hd, show (10000 : ℝ) = 100 ^ 2 by norm_num]
      exact Real.sqrt_sq (by norm_num)
    rw [sphereR_hit_eq]
    rw [if_pos (by rw [hd]; norm_num)]
    have hr1 : sphR1 ⟨⟨0, 0, 0⟩, 50, ColourR.black⟩
        ⟨⟨0, 0, 100⟩, ⟨0, 0, -1⟩⟩ = 50 := by
      unfold sphR1
      rw [hsqrt]
      norm_num [sphA, sphB, Vec3R.dot]
    rw [hr1]
    rw [if_pos (by norm_num [epsR])]

/-- C6: witness, discharging `a > 0` and `disc ≥ 0` at the concrete sphere
and ray of scenario C. -/
theorem sphere_hit_spec_witness :
    sphR1 ⟨⟨0, 0, 0⟩, 50, ColourR.black⟩ ⟨⟨0, 0, 100⟩, ⟨0, 0, -1⟩⟩ ≤
      sphR2 ⟨⟨0, 0, 0⟩, 50, ColourR.black⟩ ⟨⟨0, 0, 100⟩, ⟨0, 0, -1⟩⟩ :=
  (sphere_hit_spec.2.2.1 ⟨⟨0, 0, 0⟩, 50, ColourR.black⟩
    ⟨⟨0, 0, 100⟩, ⟨0, 0, -1⟩⟩
    (by norm_num [sphA, Vec3R.dot])
    (by norm_num [sphDisc, sphA, sphB, sphC, Vec3R.dot])).1

/-- Colour addition is right-commutative (componentwise real addition). -/
theorem ColourR.add_right_comm (a b c : ColourR) :
    a + b + c = a + c + b := by
  simp only [ColourR.add_def, ColourR.mk.injEq]
  refine ⟨by ring, by ring, by ring⟩

/-- The Matte fold step reads only the objects of the world it closes over,
never the light list. -/
theorem matteStep_drop_lights (m : MatteR) (obj : List (RayR → Option ℝ))
    (amb : LightR) (ls ls' : List LightR) (hit : HitCtx) :
    matteStep m ⟨obj, amb, ls⟩ hit = matteStep m ⟨obj, amb, ls'⟩ hit := by
  funext accum l
  unfold matteStep
  cases l <;> rfl

/-- The Phong fold step reads only the objects of the world it closes over,
never the light list. -/
theorem phongStep_drop_lights (p : PhongR) (obj : List (RayR → Option ℝ))
    (amb : LightR) (ls ls' : List LightR) (hit : HitCtx) :
    phongStep p ⟨obj, amb, ls⟩ hit = phongStep p ⟨obj, amb, ls'⟩ hit := by
  funext accum l
  unfold phongStep
  cases l <;> rfl

/-- C9: for every Matte and Phong material, world, and intersection, the
shade result is unchanged under any permutation of the world's light list:
the ambient base term plus the per-light contributions (each gated on a
front-facing angle and an unshadowed shadow ray) sum additively and
commute. -/
theorem shade_perm_invariant (m : MatteR) (p : PhongR) (w : WorldR)
    (hit : HitCtx) (ls : List LightR) (hperm : List.Perm ls w.lights) :
    m.shade { w with lights := ls } hit = m.shade w hit ∧
    p.shade { w with lights := ls } hit = p.shade w hit := by
  obtain ⟨obj, amb, lights⟩ := w
  constructor
  · simp only [MatteR.shade]
    rw [matteStep_drop_lights m obj amb ls lights]
    refine List.Perm.foldl_eq' hperm ?_ _
    intro x _hx y _hy z
    unfold matteStep
    dsimp only
    split_ifs <;> first | rfl | apply ColourR.add_right_comm
  · simp only [PhongR.shade]
    rw [phongStep_drop_lights p obj amb ls lights]
    refine List.Perm.foldl_eq' hperm ?_ _
    intro x _hx y _hy z
    unfold phongStep
    dsimp only
    split_ifs <;> first | rfl | apply ColourR.add_right_comm

/-- C9: witness, applying the permutation-invariance theorem to a concrete
two-light world with the swapped light list. -/
theorem shade_perm_invariant_witness :
    MatteR.shade (MatteR.new 1 1 ⟨1, 1, 1⟩)
        ⟨[], LightR.ambient 1 ⟨1, 1, 1⟩,
          [LightR.ambient 1 ⟨1, 0, 0⟩, LightR.point 1 ⟨1, 1, 1⟩ ⟨0, 0, 0⟩]⟩
        ⟨⟨⟨0, 0, 0⟩, ⟨0, 0, 1⟩⟩, ⟨0, 0, 0⟩, ⟨0, 0, 1⟩⟩ =
      MatteR.shade (MatteR.new 1 1 ⟨1, 1, 1⟩)
        ⟨[], LightR.ambient 1 ⟨1, 1, 1⟩,
          [LightR.point 1 ⟨1, 1, 1⟩ ⟨0, 0, 0⟩, LightR.ambient 1 ⟨1, 0, 0⟩]⟩
        ⟨⟨⟨0, 0, 0⟩, ⟨0, 0, 1⟩⟩, ⟨0, 0, 0⟩, ⟨0, 0, 1⟩⟩ :=
  (shade_perm_invariant (MatteR.new 1 1 ⟨1, 1, 1⟩)
      (PhongR.new 1 1 1 1 ⟨1, 1, 1⟩)
      ⟨[], LightR.ambient 1 ⟨1, 1, 1⟩,
        [LightR.point 1 ⟨1, 1, 1⟩ ⟨0, 0, 0⟩, LightR.ambient 1 ⟨1, 0, 0⟩]⟩
      ⟨⟨⟨0, 0, 0⟩, ⟨0, 0, 1⟩⟩, ⟨0, 0, 0⟩, ⟨0, 0, 1⟩⟩
      [LightR.ambient 1 ⟨1, 0, 0⟩, LightR.point 1 ⟨1, 1, 1⟩ ⟨0, 0, 0⟩]
      (List.Perm.swap (LightR.point 1 ⟨1, 1, 1⟩ ⟨0, 0, 0⟩)
        (LightR.ambient 1 ⟨1, 0, 0⟩) [])).1

end Raytracer
